import Mathlib

/-!
Verification of the cap-go-telemetry repository: a shallow embedding of the
configuration resolver, sampler factory and console renderers (spans, metrics,
logs), with theorems settling the specification claims.

Conventions of the embedding:
* Go pointers that may be `nil` become `Option`; Go `int`/`int64` become `Int`
  (or `Nat` where the source value is a count); Go `float64` becomes `Rat`
  (every float operation the embedded code performs - comparison with 0,
  division by a power of ten, fixed-point printing - is exact on the values
  the theorems touch).
* Code that can panic (out-of-range indexing) returns `Option`; `none` models
  the Go panic.
* Go maps iterated for output are modelled by passing the iteration order as
  an explicit parameter constrained to be a permutation of the key set, since
  Go's map iteration order is unspecified.
* The `fatih/color` Sprint functions are modelled as the identity, i.e. the
  no-color mode the library uses for non-terminal writers (as in the
  repository's own tests, which write to a buffer).
-/

namespace CapGoTelemetry

/-! ## Configuration data model (pkg/telemetry/config/config.go) -/

/-- `config.ExporterConfig`: module/class identifiers plus free-form settings. -/
structure ExporterConfig where
  Module : String
  Class : String
  Config : List (String × String)
deriving DecidableEq, Repr

/-- `config.SamplerConfig`: sampler kind, root kind, ratio, ignored paths. -/
structure SamplerConfig where
  Kind : String
  Root : String
  Ratio : Rat
  IgnoreIncomingPaths : List String
deriving DecidableEq, Repr

/-- `config.MetricsExportConfig`. -/
structure MetricsExportConfig where
  ExportIntervalMillis : Int
deriving DecidableEq, Repr

/-- `config.TracingConfig`. -/
structure TracingConfig where
  Enabled : Bool
  Sampler : Option SamplerConfig
  Exporter : Option ExporterConfig
  HRTime : Bool
  TxEnabled : Bool
  HanaPrompt : Bool
deriving DecidableEq, Repr

/-- `config.MetricsConfig`. -/
structure MetricsConfig where
  Enabled : Bool
  Exporter : Option ExporterConfig
  Config : Option MetricsExportConfig
  DBPool : Bool
  Queue : Bool
  HostMetrics : Bool
  RuntimeMetrics : Bool
deriving DecidableEq, Repr

/-- `config.LoggingConfig`. -/
structure LoggingConfig where
  Enabled : Bool
  Exporter : Option ExporterConfig
deriving DecidableEq, Repr

/-- `config.InstrumentationConfig`. -/
structure InstrumentationConfig where
  Module : String
  Class : String
  Config : List (String × String)
  Enabled : Bool
deriving DecidableEq, Repr

/-- `config.VCAPConfig`. -/
structure VCAPConfig where
  Label : String
deriving DecidableEq, Repr

/-- `config.Config`: the main telemetry configuration. -/
structure Config where
  Disabled : Bool
  ServiceName : String
  Kind : String
  Tracing : Option TracingConfig
  Metrics : Option MetricsConfig
  Logging : Option LoggingConfig
  Instrumentations : List (String × InstrumentationConfig)
deriving DecidableEq, Repr

/-- `config.PredefinedKind`: a named bundle of optional signal blocks. -/
structure PredefinedKind where
  Name : String
  Tracing : Option TracingConfig
  Metrics : Option MetricsConfig
  Logging : Option LoggingConfig
  VCAP : Option VCAPConfig
  TokenName : String
deriving DecidableEq, Repr

/-- `Config.IsEnabled` (config.go): `!c.Disabled`. -/
def Config.IsEnabled (c : Config) : Bool := !c.Disabled

/-- `Config.IsTracingEnabled` (config.go):
`c.IsEnabled() && c.Tracing != nil && c.Tracing.Enabled`. -/
def Config.IsTracingEnabled (c : Config) : Bool :=
  c.IsEnabled && (match c.Tracing with
    | some t => t.Enabled
    | none => false)

/-- `Config.IsMetricsEnabled` (config.go):
`c.IsEnabled() && c.Metrics != nil && c.Metrics.Enabled`. -/
def Config.IsMetricsEnabled (c : Config) : Bool :=
  c.IsEnabled && (match c.Metrics with
    | some m => m.Enabled
    | none => false)

/-- `Config.IsLoggingEnabled` (config.go):
`c.IsEnabled() && c.Logging != nil && c.Logging.Enabled`. -/
def Config.IsLoggingEnabled (c : Config) : Bool :=
  c.IsEnabled && (match c.Logging with
    | some l => l.Enabled
    | none => false)

/-! ## Environment helpers (pkg/telemetry/config/defaults.go) -/

/-- Go `os.Getenv` applied to an explicit environment snapshot
(`none` = variable unset): Go returns `""` both for an unset variable and for
a variable set to the empty string. -/
def osGetenv (env : String → Option String) (key : String) : String :=
  (env key).getD ""

/-- Go `strings.ToLower`, character by character (the inputs the resolver
compares are ASCII, where Unicode and ASCII lowering agree). -/
def goToLower (s : String) : String :=
  String.mk (s.data.map Char.toLower)

/-- `getEnvBool` (defaults.go): inside the `value != ""` guard the switch sends
`"false"`, `"0"`, `""` (lower-cased) to `false` and everything else to `true`;
outside the guard the default is returned. -/
def getEnvBool (env : String → Option String) (key : String)
    (defaultValue : Bool) : Bool :=
  let value := osGetenv env key
  if value ≠ "" then
    match goToLower value with
    | "false" => false
    | "0" => false
    | "" => false
    | _ => true
  else defaultValue

/-! ## Log severity formatting (exporters/console/logs.go) -/

/-- OpenTelemetry `log.SeverityTrace` (numeric severity scale). -/
def SeverityTrace : Int := 1
/-- OpenTelemetry `log.SeverityDebug`. -/
def SeverityDebug : Int := 5
/-- OpenTelemetry `log.SeverityInfo`. -/
def SeverityInfo : Int := 9
/-- OpenTelemetry `log.SeverityWarn`. -/
def SeverityWarn : Int := 13
/-- OpenTelemetry `log.SeverityError`. -/
def SeverityError : Int := 17
/-- OpenTelemetry `log.SeverityFatal`. -/
def SeverityFatal : Int := 21

/-- `defaultLogFormatter.formatSeverity` (logs.go): at-or-above threshold
comparison against fatal, error, warn, info, debug in that order, falling
through to the trace label. Color wrappers are the identity (no-color mode). -/
def defaultLogFormatter.formatSeverity (severity : Int) : String :=
  if severity ≥ SeverityFatal then "💀 FATAL  "
  else if severity ≥ SeverityError then "❌ ERROR  "
  else if severity ≥ SeverityWarn then "⚠️  WARN   "
  else if severity ≥ SeverityInfo then "ℹ️  INFO   "
  else if severity ≥ SeverityDebug then "🐛 DEBUG  "
  else "📝 TRACE  "

/-! ## Metric data model (go.opentelemetry.io/otel/sdk/metric/metricdata),
restricted to the shapes the console formatter inspects. -/

/-- A gauge/sum data point: attribute set and numeric value. -/
structure DataPoint (α : Type) where
  Attributes : List (String × String)
  Value : α
deriving DecidableEq, Repr

/-- A histogram data point; the formatter only reads its `Count`. -/
structure HistogramDataPoint where
  Count : Nat
deriving DecidableEq, Repr

/-- The `m.Data` shapes distinguished by the formatter's type switches:
`Gauge[int64]`, `Gauge[float64]`, `Sum[int64]`, `Sum[float64]`,
`Histogram[int64]`, `Histogram[float64]`. -/
inductive MetricData where
  | GaugeInt (DataPoints : List (DataPoint Int))
  | GaugeFloat (DataPoints : List (DataPoint Rat))
  | SumInt (DataPoints : List (DataPoint Int))
  | SumFloat (DataPoints : List (DataPoint Rat))
  | HistogramInt (DataPoints : List HistogramDataPoint)
  | HistogramFloat (DataPoints : List HistogramDataPoint)
deriving DecidableEq, Repr

/-- Whether the data is a `Sum[float64]` (the shape `formatCPUTime` asserts). -/
def MetricData.isSumFloat : MetricData → Bool
  | .SumFloat _ => true
  | _ => false

/-- `metricdata.Metrics`: a named metric with its data. -/
structure Metrics where
  Name : String
  Data : MetricData
deriving DecidableEq, Repr

/-- `metricdata.ScopeMetrics`. -/
structure ScopeMetrics where
  Metrics : List Metrics
deriving DecidableEq, Repr

/-- `metricdata.ResourceMetrics`. -/
structure ResourceMetrics where
  ScopeMetrics : List ScopeMetrics
deriving DecidableEq, Repr

/-! ## Numeric printing helpers (Go `fmt` verbs used by the renderers) -/

/-- Left-pad with `'0'` to the given width (used for fixed decimal digits). -/
def padZeros (width : Nat) (s : String) : String :=
  String.mk (List.replicate (width - s.length) '0') ++ s

/-- Left-pad with spaces to the given width (Go `%4s`, `%8.2f` padding). -/
def padLeft (width : Nat) (s : String) : String :=
  String.mk (List.replicate (width - s.length) ' ') ++ s

/-- Floor of a rational (the denominator is positive, so floor is the
floor-division of numerator by denominator). -/
def ratFloor (q : Rat) : Int := q.num.fdiv (q.den : Int)

/-- Round to the nearest integer, halves up. -/
def ratRound (q : Rat) : Int := ratFloor (q + 1 / 2)

/-- Go `fmt.Sprintf("%.*f", prec, x)` on the exact rational value: fixed-point
with `prec` decimal digits, rounding to nearest (the printed Go double is the
correctly rounded decimal of the binary value; on the integral and exact
inputs used by the theorems the two agree). -/
def sprintfFixed (prec : Nat) (q : Rat) : String :=
  let scale : Int := (10 : Int) ^ prec
  let n : Int := ratRound (q * (scale : Rat))
  let sign := if n < 0 then "-" else ""
  let m := n.natAbs
  sign ++ toString (m / scale.natAbs) ++ "." ++
    padZeros prec (toString (m % scale.natAbs))

/-! ## Metric renderer (exporters/console/metrics.go) -/

/-- The four buckets of the name-based classification in
`defaultMetricFormatter.Format`. -/
inductive MetricBucket where
  | host
  | dbpool
  | queue
  | custom
deriving DecidableEq, Repr, BEq

/-- Go `strings.HasPrefix`, character by character. -/
def goStartsWith (s pre : String) : Bool :=
  pre.data.isPrefixOf s.data

/-- The first-match-wins switch classifying a metric name:
`process.`/`runtime.` → host, `db.pool` → db-pool, `queue` → queue,
otherwise custom. -/
def bucketOf (name : String) : MetricBucket :=
  if goStartsWith name "process." || goStartsWith name "runtime." then .host
  else if goStartsWith name "db.pool" then .dbpool
  else if goStartsWith name "queue" then .queue
  else .custom

/-- `formatCPUTime`: renders only when the data is a `Sum[float64]`; scans all
data points for the `"state"` attribute, the last `"user"`/`"system"` value
winning; any other data shape contributes nothing. -/
def formatCPUTime (m : Metrics) : String :=
  match m.Data with
  | .SumFloat dps =>
      let times := dps.foldl
        (fun (acc : Rat × Rat) dp =>
          dp.Attributes.foldl
            (fun (acc : Rat × Rat) kv =>
              if kv.1 = "state" then
                if kv.2 = "user" then (dp.Value, acc.2)
                else if kv.2 = "system" then (acc.1, dp.Value)
                else acc
              else acc) acc) ((0 : Rat), (0 : Rat))
      "  Process Cpu time in seconds: \x7b user: " ++ sprintfFixed 3 times.1 ++
        ", system: " ++ sprintfFixed 3 times.2 ++ " \x7d\n"
  | _ => ""

/-- `formatMemoryUsage`: one line per data point of a `Gauge[int64]`. -/
def formatMemoryUsage (m : Metrics) : String :=
  match m.Data with
  | .GaugeInt dps =>
      String.join (dps.map fun dp =>
        "  Process Memory usage in bytes: " ++ toString dp.Value ++ "\n")
  | _ => ""

/-- `formatGCCount`: one line per data point of a `Sum[int64]`. -/
def formatGCCount (m : Metrics) : String :=
  match m.Data with
  | .SumInt dps =>
      String.join (dps.map fun dp =>
        "  Runtime GC count: " ++ toString dp.Value ++ "\n")
  | _ => ""

/-- `formatGenericMetric`: name, then every data point's value (`%d` for
int64, `%.3f` for float64); for histograms it reads `DataPoints[0].Count`
unconditionally - `none` models the Go index-out-of-range panic on an empty
data-point list. -/
def formatGenericMetric (m : Metrics) : Option String := do
  let mid ← match m.Data with
    | .GaugeInt dps =>
        some (String.join (dps.map fun dp => toString dp.Value ++ " "))
    | .GaugeFloat dps =>
        some (String.join (dps.map fun dp => sprintfFixed 3 dp.Value ++ " "))
    | .SumInt dps =>
        some (String.join (dps.map fun dp => toString dp.Value ++ " "))
    | .SumFloat dps =>
        some (String.join (dps.map fun dp => sprintfFixed 3 dp.Value ++ " "))
    | .HistogramInt dps =>
        (dps.head?).map fun dp => "count: " ++ toString dp.Count ++ " "
    | .HistogramFloat dps =>
        (dps.head?).map fun dp => "count: " ++ toString dp.Count ++ " "
  pure ("  " ++ m.Name ++ ": " ++ mid ++ "\n")

/-- The per-metric dispatch inside `formatHostMetrics`: special cases for
`process.cpu.time`, `process.memory.usage` and `runtime.go.gc.count`, the
generic dump otherwise. -/
def formatHostMetric1 (m : Metrics) : Option String :=
  match m.Name with
  | "process.cpu.time" => some (formatCPUTime m)
  | "process.memory.usage" => some (formatMemoryUsage m)
  | "runtime.go.gc.count" => some (formatGCCount m)
  | _ => formatGenericMetric m

/-- `formatHostMetrics`: concatenation of the per-metric dispatch over the
host bucket. -/
def formatHostMetrics (metrics : List Metrics) : Option String :=
  metrics.foldl
    (fun acc m => acc.bind fun s => (formatHostMetric1 m).map (s ++ ·))
    (some "")

/-- `formatDBPoolMetrics`: fixed 3-column table; each of the three source
metrics overwrites its column per `Gauge[int64]` data point (last one wins),
missing metrics keep the zero placeholders. -/
def formatDBPoolMetrics (metrics : List Metrics) : String :=
  let header := "     size | available | pending\n"
  let cols := metrics.foldl
    (fun (cols : String × String × String) m =>
      match m.Name, m.Data with
      | "db.pool.size", .GaugeInt dps =>
          (dps.foldl (fun _ dp => toString dp.Value ++ "/" ++ toString dp.Value)
            cols.1, cols.2.1, cols.2.2)
      | "db.pool.available", .GaugeInt dps =>
          (cols.1, dps.foldl
            (fun _ dp => toString dp.Value ++ "/" ++ toString dp.Value)
            cols.2.1, cols.2.2)
      | "db.pool.pending", .GaugeInt dps =>
          (cols.1, cols.2.1,
            dps.foldl (fun _ dp => toString dp.Value) cols.2.2)
      | _, _ => cols)
    ("0/0", "0/0", "0")
  header ++ "     " ++ cols.1 ++ " |      " ++ cols.2.1 ++ " |      " ++
    cols.2.2 ++ "\n"

/-- The seven columns of the queue table. -/
structure QueueVals where
  cold : String
  remaining : String
  minT : String
  medT : String
  maxT : String
  incoming : String
  outgoing : String
deriving Repr

/-- `formatQueueMetrics`: fixed 7-column table; only cold/remaining/incoming/
outgoing have source metrics (the three storage-time columns always keep their
`"0"` placeholder). -/
def formatQueueMetrics (metrics : List Metrics) : String :=
  let header := "     cold | remaining | min storage time | med storage time | max storage time | incoming | outgoing\n"
  let vals := metrics.foldl
    (fun (v : QueueVals) m =>
      match m.Data with
      | .GaugeInt dps =>
          dps.foldl
            (fun (v : QueueVals) dp =>
              match m.Name with
              | "queue.cold" => { v with cold := toString dp.Value }
              | "queue.remaining" => { v with remaining := toString dp.Value }
              | "queue.incoming" => { v with incoming := toString dp.Value }
              | "queue.outgoing" => { v with outgoing := toString dp.Value }
              | _ => v) v
      | _ => v)
    ⟨"0", "0", "0", "0", "0", "0", "0"⟩
  header ++ "     " ++ padLeft 4 vals.cold ++ " |      " ++
    padLeft 4 vals.remaining ++ " |             " ++ padLeft 4 vals.minT ++
    " |             " ++ padLeft 4 vals.medT ++ " |             " ++
    padLeft 4 vals.maxT ++ " |     " ++ padLeft 4 vals.incoming ++ " |     " ++
    padLeft 4 vals.outgoing ++ "\n"

/-- `formatCustomMetrics`: the generic dump over the custom bucket. -/
def formatCustomMetrics (metrics : List Metrics) : Option String :=
  metrics.foldl
    (fun acc m => acc.bind fun s => (formatGenericMetric m).map (s ++ ·))
    (some "")

/-- `defaultMetricFormatter.Format` (metrics.go): nil or scope-less input
renders empty; otherwise the metrics of all scopes are partitioned into the
four buckets (order preserved) and each non-empty bucket renders as a labeled
section. `none` models a Go panic inside a section body. -/
def defaultMetricFormatter.Format (rm? : Option ResourceMetrics) :
    Option String :=
  match rm? with
  | none => some ""
  | some rm =>
    if rm.ScopeMetrics.isEmpty then some ""
    else
      let all := rm.ScopeMetrics.foldl (fun acc sm => acc ++ sm.Metrics) []
      let hostMetrics := all.filter fun m => bucketOf m.Name == .host
      let dbPoolMetrics := all.filter fun m => bucketOf m.Name == .dbpool
      let queueMetrics := all.filter fun m => bucketOf m.Name == .queue
      let customMetrics := all.filter fun m => bucketOf m.Name == .custom
      do
        let hostSection ←
          if hostMetrics.isEmpty then pure ""
          else do
            let body ← formatHostMetrics hostMetrics
            pure ("[telemetry] - host metrics:\n" ++ body ++ "\n")
        let dbSection :=
          if dbPoolMetrics.isEmpty then ""
          else "[telemetry] - db.pool:\n" ++
            formatDBPoolMetrics dbPoolMetrics ++ "\n"
        let queueSection :=
          if queueMetrics.isEmpty then ""
          else "[telemetry] - queue:\n" ++
            formatQueueMetrics queueMetrics ++ "\n"
        let customSection ←
          if customMetrics.isEmpty then pure ""
          else do
            let body ← formatCustomMetrics customMetrics
            pure ("[telemetry] - custom metrics:\n" ++ body ++ "\n")
        pure (hostSection ++ dbSection ++ queueSection ++ customSection)

/-! ## Sampler factory (pkg/telemetry/telemetry.go, `createSampler`) -/

/-- The sampling policies `createSampler` can build, mirroring the
OpenTelemetry SDK constructors it calls: `AlwaysSample`, `NeverSample`,
`TraceIDRatioBased(ratio)`, `ParentBased(root)`. -/
inductive Sampler where
  | alwaysSample
  | neverSample
  | traceIDRatioBased (ratio : Rat)
  | parentBased (root : Sampler)
deriving DecidableEq, Repr

/-- The sampling-decision inputs the embedded policies consult: whether the
span has a parent context, whether that parent was sampled, and the fraction
the trace-id hash maps to (uniform stand-in for ratio sampling). -/
structure SamplingParameters where
  HasParent : Bool
  ParentSampled : Bool
  TraceIDFraction : Rat
deriving DecidableEq, Repr

/-- Decision semantics of the external OpenTelemetry SDK samplers (external
collaborator): always/never are constant, ratio sampling compares the
trace-id fraction with the ratio, and `ParentBased` delegates to the parent
decision when a parent exists and to the root policy otherwise. -/
def Sampler.shouldSample : Sampler → SamplingParameters → Bool
  | .alwaysSample, _ => true
  | .neverSample, _ => false
  | .traceIDRatioBased ratio, p => p.TraceIDFraction < ratio
  | .parentBased root, p =>
      if p.HasParent then p.ParentSampled else root.shouldSample p

/-- `createSampler` (telemetry.go): kind switch with a permissive always-on
default; the parent-based root is resolved by an inner switch that recognizes
only `AlwaysOnSampler` and `AlwaysOffSampler`. -/
def createSampler (samplerConfig : Option SamplerConfig) : Sampler :=
  match samplerConfig with
  | none => .alwaysSample
  | some sc =>
    if sc.Kind = "AlwaysOnSampler" then .alwaysSample
    else if sc.Kind = "AlwaysOffSampler" then .neverSample
    else if sc.Kind = "TraceIdRatioBasedSampler" then
      .traceIDRatioBased (if sc.Ratio ≤ 0 then 1 else sc.Ratio)
    else if sc.Kind = "ParentBasedSampler" then
      let root : Sampler :=
        if sc.Root = "AlwaysOnSampler" then .alwaysSample
        else if sc.Root = "AlwaysOffSampler" then .neverSample
        else .alwaysSample
      .parentBased root
    else .alwaysSample

/-! ## Span renderer (exporters/console/spans.go) -/

/-- A finished span record as the formatter reads it: the trace/span ids are
the hex strings `TraceID().String()` returns (32 characters in the SDK),
timestamps are Unix nanoseconds. -/
structure SpanData where
  TraceID : String
  SpanID : String
  Name : String
  StartTime : Int
  EndTime : Int
  Attributes : List (String × String)
deriving DecidableEq, Repr

/-- `isImportantAttribute`: membership in the fixed allow-list. -/
def isImportantAttribute (key : String) : Bool :=
  key = "http.method" || key = "http.url" || key = "http.status_code" ||
    key = "db.statement" || key = "db.system" || key = "error"

/-- Go `int64(x)` on a float value: truncation toward zero. -/
def truncToInt (q : Rat) : Int := if 0 ≤ q then ⌊q⌋ else -⌊-q⌋

/-- One bounded bubble pass: the inner loop `for j := 0; j < bound; j++`
comparing `sorted[j].StartTime().After(sorted[j+1].StartTime())` and swapping
adjacent elements. -/
def passN : Nat → List SpanData → List SpanData
  | 0, l => l
  | _ + 1, [] => []
  | _ + 1, [a] => [a]
  | m + 1, a :: b :: rest =>
      if b.StartTime < a.StartTime then b :: passN m (a :: rest)
      else a :: passN m (b :: rest)

/-- The outer loop of `sortSpansByStartTime`: passes with bounds
`k, k-1, ..., 1`. -/
def bubbleOuter : Nat → List SpanData → List SpanData
  | 0, l => l
  | k + 1, l => bubbleOuter k (passN (k + 1) l)

/-- `sortSpansByStartTime` (spans.go): bubble sort on a copy of the slice,
swapping only on strictly-greater start times. -/
def sortSpansByStartTime (spans : List SpanData) : List SpanData :=
  bubbleOuter (spans.length - 1) spans

/-- The lines `formatSpanHierarchy` writes for one span: the timing line
(`%8.2f` offsets reduced `% 10000`, duration, name), then one line per
allow-listed attribute. Lines are represented without their trailing
newline. -/
def formatSpanLines (depth : Nat) (s : SpanData) : List String :=
  let indent := String.join (List.replicate depth "  ")
  let startMs : Rat := (s.StartTime : Rat) / 1000000
  let endMs : Rat := (s.EndTime : Rat) / 1000000
  let durationMs : Rat := ((s.EndTime - s.StartTime : Int) : Rat) / 1000000
  let timingLine :=
    indent ++ padLeft 8 (sprintfFixed 2 ((truncToInt startMs).tmod 10000 : Rat)) ++
    " → " ++ padLeft 8 (sprintfFixed 2 ((truncToInt endMs).tmod 10000 : Rat)) ++
    " = " ++ (padLeft 8 (sprintfFixed 2 durationMs) ++ " ms") ++
    "  " ++ s.Name
  timingLine ::
    s.Attributes.filterMap fun kv =>
      if isImportantAttribute kv.1 then
        some (indent ++ "    " ++ kv.1 ++ ": " ++ kv.2)
      else none

/-- `formatSpanHierarchy` over a span list (always called with depth 0). -/
def formatSpanHierarchy (spans : List SpanData) (depth : Nat) : List String :=
  spans.flatMap (formatSpanLines depth)

/-- Go `traceID[:8]` on the ASCII hex id: the first 8 characters. -/
def strTake (s : String) (n : Nat) : String :=
  String.mk (s.data.take n)

/-- The header line of one trace block: label, `elapsed times`, abbreviated
trace id (`traceID[:8]`). -/
def traceHeaderLine (traceID : String) : String :=
  "[telemetry] - elapsed times (trace: " ++ strTake traceID 8 ++ "):"

/-- The group a trace id owns in `traceGroups`: the batch's spans with that
trace id, in batch order (Go builds the map by appending in batch order). -/
def traceGroup (spans : List SpanData) (traceID : String) : List SpanData :=
  spans.filter fun s => s.TraceID == traceID

/-- The lines of one trace block: header, the sorted group's span lines, and
the blank line the trailing `WriteString("\n")` produces. -/
def traceBlockLines (spans : List SpanData) (traceID : String) : List String :=
  traceHeaderLine traceID ::
    formatSpanHierarchy (sortSpansByStartTime (traceGroup spans traceID)) 0 ++
    [""]

/-- Append a key the way Go map insertion fixes the key set: keep the order of
first encounter, ignore repeats. -/
def insertKey (keys : List String) (key : String) : List String :=
  if key ∈ keys then keys else keys ++ [key]

/-- The distinct trace ids of the batch in order of first encounter: the key
set of `traceGroups`. -/
def traceOrder (spans : List SpanData) : List String :=
  spans.foldl (fun keys s => insertKey keys s.TraceID) []

/-- Emit every line followed by a newline, as the string-builder writes do
(right fold; equal to the builder's left-to-right appends by associativity of
string concatenation). -/
def joinLines (lines : List String) : String :=
  lines.foldr (fun line acc => line ++ "\n" ++ acc) ""

/-- `defaultSpanFormatter.Format` (spans.go): empty batch renders empty;
otherwise one block per trace-group key. Go iterates the `traceGroups` map,
whose order is unspecified, so the key order is an explicit parameter: an
execution of the Go code corresponds to a `keyOrder` that is a permutation of
`traceOrder spans`. -/
def defaultSpanFormatter.Format (spans : List SpanData)
    (keyOrder : List String) : String :=
  if spans.isEmpty then ""
  else joinLines (keyOrder.flatMap (traceBlockLines spans))

/-! ## Preset catalog and preset merge (defaults.go, loader.go) -/

/-- The tracing block of the `"telemetry-to-console"` preset (unset Go fields
take their zero values: nil sampler, false toggles). -/
def consolePresetTracing : TracingConfig :=
  { Enabled := true
    Sampler := none
    Exporter := some { Module := "console", Class := "ConsoleSpanExporter", Config := [] }
    HRTime := false
    TxEnabled := false
    HanaPrompt := false }

/-- The metrics block of the `"telemetry-to-console"` preset. -/
def consolePresetMetrics : MetricsConfig :=
  { Enabled := true
    Exporter := some { Module := "console", Class := "ConsoleMetricExporter", Config := [] }
    Config := none
    DBPool := false
    Queue := false
    HostMetrics := false
    RuntimeMetrics := false }

/-- A preset tracing block declaring only an exporter module/class. -/
def presetTracing (module cls : String) : TracingConfig :=
  { Enabled := true
    Sampler := none
    Exporter := some { Module := module, Class := cls, Config := [] }
    HRTime := false
    TxEnabled := false
    HanaPrompt := false }

/-- A preset metrics block declaring only an exporter module/class. -/
def presetMetrics (module cls : String) : MetricsConfig :=
  { Enabled := true
    Exporter := some { Module := module, Class := cls, Config := [] }
    Config := none
    DBPool := false
    Queue := false
    HostMetrics := false
    RuntimeMetrics := false }

/-- The `"telemetry-to-console"` preset: console exporters for tracing and
metrics, no logging block. -/
def consolePK : PredefinedKind :=
  { Name := "telemetry-to-console"
    Tracing := some consolePresetTracing
    Metrics := some consolePresetMetrics
    Logging := none, VCAP := none, TokenName := "" }

/-- `GetPredefinedKinds` (defaults.go) as a lookup in the fixed catalog of
five named presets. -/
def GetPredefinedKinds (name : String) : Option PredefinedKind :=
  match name with
  | "telemetry-to-console" => some consolePK
  | "telemetry-to-dynatrace" =>
      some { Name := "telemetry-to-dynatrace"
             Tracing := some (presetTracing "otlp" "OTLPTraceExporter")
             Metrics := some (presetMetrics "otlp" "OTLPMetricExporter")
             Logging := none
             VCAP := some { Label := "dynatrace" }
             TokenName := "ingest_apitoken" }
  | "telemetry-to-cloud-logging" =>
      some { Name := "telemetry-to-cloud-logging"
             Tracing := some (presetTracing "otlp-grpc" "OTLPTraceExporter")
             Metrics := some (presetMetrics "otlp-grpc" "OTLPMetricExporter")
             Logging := none
             VCAP := some { Label := "cloud-logging" }
             TokenName := "" }
  | "telemetry-to-jaeger" =>
      some { Name := "telemetry-to-jaeger"
             Tracing := some (presetTracing "jaeger" "JaegerExporter")
             Metrics := none
             Logging := none, VCAP := none, TokenName := "" }
  | "telemetry-to-otlp" =>
      some { Name := "telemetry-to-otlp"
             Tracing := some (presetTracing "otlp-env" "OTLPTraceExporter")
             Metrics := some (presetMetrics "otlp-env" "OTLPMetricExporter")
             Logging := none, VCAP := none, TokenName := "" }
  | _ => none

/-- The per-signal merge step of `applyPredefinedKind` for the tracing block:
`nil` user block and non-nil preset block → adopt wholesale; both non-nil →
fill the exporter from the preset only when the user's exporter is `nil`;
`nil` preset block → unchanged. -/
def mergeTracing :
    Option TracingConfig → Option TracingConfig → Option TracingConfig
  | none, some pt => some pt
  | some ct, some pt =>
      some (match ct.Exporter with
        | none => { ct with Exporter := pt.Exporter }
        | some _ => ct)
  | ct, none => ct

/-- The per-signal merge step for the metrics block (same rule). -/
def mergeMetrics :
    Option MetricsConfig → Option MetricsConfig → Option MetricsConfig
  | none, some pm => some pm
  | some cm, some pm =>
      some (match cm.Exporter with
        | none => { cm with Exporter := pm.Exporter }
        | some _ => cm)
  | cm, none => cm

/-- The per-signal merge step for the logging block (same rule). -/
def mergeLogging :
    Option LoggingConfig → Option LoggingConfig → Option LoggingConfig
  | none, some pl => some pl
  | some cl, some pl =>
      some (match cl.Exporter with
        | none => { cl with Exporter := pl.Exporter }
        | some _ => cl)
  | cl, none => cl

/-- `Loader.applyPredefinedKind` (loader.go): unknown preset name errors;
otherwise the three signal blocks are merged independently (the three
sequential if/else blocks of the Go code) and every other field is kept. -/
def applyPredefinedKind (config : Config) : Except String Config :=
  match GetPredefinedKinds config.Kind with
  | none => Except.error ("unknown predefined kind: " ++ config.Kind)
  | some predefined =>
      Except.ok { config with
        Tracing := mergeTracing config.Tracing predefined.Tracing
        Metrics := mergeMetrics config.Metrics predefined.Metrics
        Logging := mergeLogging config.Logging predefined.Logging }

/-! ## Theorems -/

/-- Claim C5 (code bug, evaluation at the failing input): `getEnvBool` returns
the DEFAULT - not `false` - when the variable is set to the empty string,
because `os.Getenv` returns `""` for both unset and empty and the
`value != ""` guard then skips the switch; with default `true` the result is
`true`, contradicting the claim (and the function's own comment). The
remaining conjuncts check the parts of the claim that do hold: `"FALSE"` and
`"0"` parse as false, another non-empty value as true, unset yields the
default. -/
theorem getEnvBool_empty_string_yields_default :
    getEnvBool (fun k => if k = "HOST_METRICS_ENABLED" then some "" else none)
      "HOST_METRICS_ENABLED" true = true ∧
    getEnvBool (fun k => if k = "NO_TELEMETRY" then some "FALSE" else none)
      "NO_TELEMETRY" true = false ∧
    getEnvBool (fun k => if k = "NO_TELEMETRY" then some "0" else none)
      "NO_TELEMETRY" true = false ∧
    getEnvBool (fun k => if k = "NO_TELEMETRY" then some "yes" else none)
      "NO_TELEMETRY" false = true ∧
    getEnvBool (fun _ => none) "NO_TELEMETRY" true = true := by
  refine ⟨rfl, ?_, rfl, ?_, rfl⟩ <;> rfl

/-- Claim C7: the severity label is chosen by at-or-above threshold comparison
against fatal, error, warn, info, debug in that order, falling through to the
trace label; in particular a severity two above info and below warn renders
under the INFO label. -/
theorem formatSeverity_threshold_buckets (severity : Int) :
    (SeverityFatal ≤ severity →
      defaultLogFormatter.formatSeverity severity = "💀 FATAL  ") ∧
    (SeverityError ≤ severity → severity < SeverityFatal →
      defaultLogFormatter.formatSeverity severity = "❌ ERROR  ") ∧
    (SeverityWarn ≤ severity → severity < SeverityError →
      defaultLogFormatter.formatSeverity severity = "⚠️  WARN   ") ∧
    (SeverityInfo ≤ severity → severity < SeverityWarn →
      defaultLogFormatter.formatSeverity severity = "ℹ️  INFO   ") ∧
    (SeverityDebug ≤ severity → severity < SeverityInfo →
      defaultLogFormatter.formatSeverity severity = "🐛 DEBUG  ") ∧
    (severity < SeverityDebug →
      defaultLogFormatter.formatSeverity severity = "📝 TRACE  ") ∧
    defaultLogFormatter.formatSeverity (SeverityInfo + 2) = "ℹ️  INFO   " := by
  refine ⟨fun h1 => ?_, fun h1 h2 => ?_, fun h1 h2 => ?_, fun h1 h2 => ?_,
    fun h1 h2 => ?_, fun h1 => ?_, by decide⟩ <;>
    (simp only [SeverityDebug, SeverityInfo, SeverityWarn, SeverityError,
        SeverityFatal] at h1 ⊢
     try simp only [SeverityDebug, SeverityInfo, SeverityWarn, SeverityError,
        SeverityFatal] at h2
     unfold defaultLogFormatter.formatSeverity
     simp only [SeverityDebug, SeverityInfo, SeverityWarn, SeverityError,
        SeverityFatal]
     split_ifs <;> first | rfl | omega)

/-- Witness for C7: severity 11 = info + 2 (below warn = 13) renders under the
INFO label. -/
theorem formatSeverity_threshold_buckets_witness :
    defaultLogFormatter.formatSeverity 11 = "ℹ️  INFO   " :=
  (formatSeverity_threshold_buckets 11).2.2.2.1 (by decide) (by decide)

/-- Claim C9: with the global `Disabled` flag set, all three per-signal
queries return false regardless of the per-signal flags; each query returns
true exactly when the configuration is globally enabled, the signal block is
present and its `Enabled` flag is set. -/
theorem isEnabled_queries (c : Config) :
    (c.Disabled = true →
      c.IsTracingEnabled = false ∧ c.IsMetricsEnabled = false ∧
        c.IsLoggingEnabled = false) ∧
    (c.IsTracingEnabled = true ↔
      c.Disabled = false ∧ ∃ t, c.Tracing = some t ∧ t.Enabled = true) ∧
    (c.IsMetricsEnabled = true ↔
      c.Disabled = false ∧ ∃ m, c.Metrics = some m ∧ m.Enabled = true) ∧
    (c.IsLoggingEnabled = true ↔
      c.Disabled = false ∧ ∃ l, c.Logging = some l ∧ l.Enabled = true) := by
  obtain ⟨d, sn, k, tr, me, lo, ins⟩ := c
  cases d <;> cases tr <;> cases me <;> cases lo <;>
    simp [Config.IsEnabled, Config.IsTracingEnabled, Config.IsMetricsEnabled,
      Config.IsLoggingEnabled]

/-- A configuration that is globally disabled while every signal block says
enabled. -/
def cfgDisabledAll : Config :=
  { Disabled := true
    ServiceName := "svc"
    Kind := "telemetry-to-console"
    Tracing := some consolePresetTracing
    Metrics := some consolePresetMetrics
    Logging := some { Enabled := true, Exporter := none }
    Instrumentations := [] }

/-- Witness for C9: on a globally disabled configuration with all signal
blocks enabled, every query returns false. -/
theorem isEnabled_queries_witness :
    cfgDisabledAll.IsTracingEnabled = false ∧
    cfgDisabledAll.IsMetricsEnabled = false ∧
    cfgDisabledAll.IsLoggingEnabled = false :=
  (isEnabled_queries cfgDisabledAll).1 rfl

/-- Claim C8: a batch holding only `db.pool.size` with one data point of
value 5 renders the db-pool section with size column `5/5`, available column
`0/0` and pending column `0`: the two missing source metrics render as their
zero placeholders instead of dropping their columns. -/
theorem format_dbpool_size_only (attrs : List (String × String)) :
    defaultMetricFormatter.Format
      (some ⟨[⟨[⟨"db.pool.size", .GaugeInt [⟨attrs, 5⟩]⟩]⟩]⟩) =
    some "[telemetry] - db.pool:\n     size | available | pending\n     5/5 |      0/0 |      0\n\n" := by
  rfl

/-- Claim C2 (code bug, evaluation at the failing input): metric rendering is
NOT total - a batch whose only metric is a histogram with an empty data-point
list makes `formatGenericMetric` read `DataPoints[0]` out of range (the Go
code panics; the embedding returns `none`), instead of degrading to a
placeholder as the claim states. -/
theorem format_empty_histogram_panics :
    defaultMetricFormatter.Format
      (some ⟨[⟨[⟨"request.duration", .HistogramInt []⟩]⟩]⟩) = none ∧
    formatGenericMetric ⟨"request.duration", .HistogramInt []⟩ = none := by
  exact ⟨rfl, rfl⟩

/-- The line shape of a successful generic dump. -/
theorem genericLine_ne_empty (a b : String) :
    "  " ++ a ++ ": " ++ b ++ "\n" ≠ "" := by
  intro h
  have hl := congrArg String.length h
  simp only [String.length_append] at hl
  have h2 : ("  ").length = 2 := rfl
  have h3 : (": ").length = 2 := rfl
  have h4 : ("\n").length = 1 := rfl
  have h0 : ("" : String).length = 0 := rfl
  omega

/-- `formatGenericMetric` either panics or emits the name-prefixed line. -/
theorem formatGenericMetric_shape (m : Metrics) :
    formatGenericMetric m = none ∨
      ∃ mid, formatGenericMetric m = some ("  " ++ m.Name ++ ": " ++ mid ++ "\n") := by
  obtain ⟨name, data⟩ := m
  cases data <;> rename_i dps <;>
    first
    | exact Or.inr ⟨_, rfl⟩
    | (cases dps with
       | nil => exact Or.inl rfl
       | cons dp t => exact Or.inr ⟨_, rfl⟩)

/-- Every generic dump that succeeds starts with two spaces and the metric
name, so it is never the empty rendering. -/
theorem formatGenericMetric_ne_some_empty (m : Metrics) :
    formatGenericMetric m ≠ some "" := by
  rcases formatGenericMetric_shape m with h | ⟨mid, h⟩ <;> rw [h]
  · simp
  · simp only [ne_eq, Option.some.injEq]
    exact genericLine_ne_empty _ _

/-- Claim C10: a host-bucket metric named `process.cpu.time` whose data is not
a `Sum[float64]` is dispatched to the CPU special case, renders nothing, is
never handed to the generic dump, and leaves the rendering of the remaining
host metrics unchanged. -/
theorem cpu_time_wrong_shape_renders_nothing (d : MetricData)
    (rest : List Metrics) (h : d.isSumFloat = false) :
    formatCPUTime ⟨"process.cpu.time", d⟩ = "" ∧
    formatHostMetric1 ⟨"process.cpu.time", d⟩ =
      some (formatCPUTime ⟨"process.cpu.time", d⟩) ∧
    formatHostMetric1 ⟨"process.cpu.time", d⟩ ≠
      formatGenericMetric ⟨"process.cpu.time", d⟩ ∧
    formatHostMetrics (⟨"process.cpu.time", d⟩ :: rest) =
      formatHostMetrics rest := by
  have hcpu : formatCPUTime ⟨"process.cpu.time", d⟩ = "" := by
    cases d <;> simp_all [formatCPUTime, MetricData.isSumFloat]
  have hdisp : formatHostMetric1 ⟨"process.cpu.time", d⟩ =
      some (formatCPUTime ⟨"process.cpu.time", d⟩) := rfl
  refine ⟨hcpu, hdisp, ?_, ?_⟩
  · rw [hdisp, hcpu]
    intro hgen
    exact formatGenericMetric_ne_some_empty _ hgen.symm
  · show List.foldl _ _ _ = _
    rw [List.foldl_cons]
    congr 1
    rw [show (some "" : Option String).bind
          (fun s => (formatHostMetric1 ⟨"process.cpu.time", d⟩).map (s ++ ·)) =
        (formatHostMetric1 ⟨"process.cpu.time", d⟩).map ("" ++ ·) from rfl,
      hdisp, hcpu]
    rfl

/-- Witness for C10: an `int64` gauge under the CPU name contributes nothing
and the remaining host metrics render as before. -/
theorem cpu_time_wrong_shape_renders_nothing_witness :
    formatCPUTime ⟨"process.cpu.time", .GaugeInt [⟨[], 7⟩]⟩ = "" ∧
    formatHostMetric1 ⟨"process.cpu.time", .GaugeInt [⟨[], 7⟩]⟩ =
      some (formatCPUTime ⟨"process.cpu.time", .GaugeInt [⟨[], 7⟩]⟩) ∧
    formatHostMetric1 ⟨"process.cpu.time", .GaugeInt [⟨[], 7⟩]⟩ ≠
      formatGenericMetric ⟨"process.cpu.time", .GaugeInt [⟨[], 7⟩]⟩ ∧
    formatHostMetrics
      [⟨"process.cpu.time", .GaugeInt [⟨[], 7⟩]⟩,
       ⟨"process.memory.usage", .GaugeInt [⟨[], 42⟩]⟩] =
      formatHostMetrics [⟨"process.memory.usage", .GaugeInt [⟨[], 42⟩]⟩] :=
  cpu_time_wrong_shape_renders_nothing (.GaugeInt [⟨[], 7⟩])
    [⟨"process.memory.usage", .GaugeInt [⟨[], 42⟩]⟩] rfl

/-- A parent-based sampler spec whose root asks for ratio-based sampling. -/
def parentRatioCfg : SamplerConfig :=
  { Kind := "ParentBasedSampler"
    Root := "TraceIdRatioBasedSampler"
    Ratio := 1 / 4
    IgnoreIncomingPaths := [] }

/-- Claim C4 counterexample: for the parent-based spec with a ratio-based
root, `createSampler` builds an always-sample root - not a ratio-based root
policy as the claim states - and the two policies demonstrably differ on a
root span whose trace-id fraction (1/2) exceeds the ratio (1/4). -/
theorem createSampler_ratio_root_not_recursive :
    createSampler (some parentRatioCfg) =
      Sampler.parentBased Sampler.alwaysSample ∧
    Sampler.parentBased Sampler.alwaysSample ≠
      Sampler.parentBased (Sampler.traceIDRatioBased (1 / 4)) ∧
    (createSampler (some parentRatioCfg)).shouldSample
      ⟨false, false, 1 / 2⟩ = true ∧
    (Sampler.parentBased (Sampler.traceIDRatioBased (1 / 4))).shouldSample
      ⟨false, false, 1 / 2⟩ = false := by
  refine ⟨rfl, by simp, rfl, ?_⟩
  norm_num [Sampler.shouldSample]

/-- Claim C4 (amended): a parent-based spec builds `ParentBased(root)` where
the root policy delegates to the parent decision when a parent exists; the
root itself comes from a restricted switch that recognizes only
`AlwaysOnSampler` and `AlwaysOffSampler`, every other root kind (ratio-based
included) defaulting to always-sample - the root is not resolved recursively
through the full kind mapping. -/
theorem createSampler_parent_based (sc : SamplerConfig)
    (hk : sc.Kind = "ParentBasedSampler") :
    ∃ root, createSampler (some sc) = Sampler.parentBased root ∧
      (sc.Root = "AlwaysOnSampler" → root = Sampler.alwaysSample) ∧
      (sc.Root = "AlwaysOffSampler" → root = Sampler.neverSample) ∧
      (sc.Root ≠ "AlwaysOnSampler" → sc.Root ≠ "AlwaysOffSampler" →
        root = Sampler.alwaysSample) ∧
      ∀ p : SamplingParameters,
        (createSampler (some sc)).shouldSample p =
          if p.HasParent then p.ParentSampled else root.shouldSample p := by
  obtain ⟨k, rt, ratio, paths⟩ := sc
  simp only at hk
  subst hk
  refine ⟨if rt = "AlwaysOnSampler" then Sampler.alwaysSample
    else if rt = "AlwaysOffSampler" then Sampler.neverSample
    else Sampler.alwaysSample, rfl, ?_, ?_, ?_, fun p => rfl⟩
  · intro h1
    simp only at h1
    subst h1
    rfl
  · intro h1
    simp only at h1
    subst h1
    rfl
  · intro h1 h2
    simp only at h1 h2
    rw [if_neg h1, if_neg h2]

/-- Witness for C4 (amended): instantiated at the ratio-root spec; the built
root is always-sample. -/
theorem createSampler_parent_based_witness :
    ∃ root, createSampler (some parentRatioCfg) = Sampler.parentBased root ∧
      (parentRatioCfg.Root = "AlwaysOnSampler" →
        root = Sampler.alwaysSample) ∧
      (parentRatioCfg.Root = "AlwaysOffSampler" →
        root = Sampler.neverSample) ∧
      (parentRatioCfg.Root ≠ "AlwaysOnSampler" →
        parentRatioCfg.Root ≠ "AlwaysOffSampler" →
        root = Sampler.alwaysSample) ∧
      ∀ p : SamplingParameters,
        (createSampler (some parentRatioCfg)).shouldSample p =
          if p.HasParent then p.ParentSampled else root.shouldSample p :=
  createSampler_parent_based parentRatioCfg rfl

/-- The merged tracing block respects the asymmetric per-signal rule: an
absent user block is adopted wholesale; a present block keeps every sub-field
except that an absent exporter is filled from the preset. -/
def TracingMerged (c c' : Config) (p : PredefinedKind) : Prop :=
  (c.Tracing = none → c'.Tracing = p.Tracing) ∧
  (∀ tc, c.Tracing = some tc → ∃ tc', c'.Tracing = some tc' ∧
    tc'.Enabled = tc.Enabled ∧ tc'.Sampler = tc.Sampler ∧
    tc'.HRTime = tc.HRTime ∧ tc'.TxEnabled = tc.TxEnabled ∧
    tc'.HanaPrompt = tc.HanaPrompt ∧
    (∀ e, tc.Exporter = some e → tc'.Exporter = some e) ∧
    (tc.Exporter = none →
      tc'.Exporter = (match p.Tracing with
        | some pt => pt.Exporter
        | none => none)))

/-- Same rule for the metrics block. -/
def MetricsMerged (c c' : Config) (p : PredefinedKind) : Prop :=
  (c.Metrics = none → c'.Metrics = p.Metrics) ∧
  (∀ mc, c.Metrics = some mc → ∃ mc', c'.Metrics = some mc' ∧
    mc'.Enabled = mc.Enabled ∧ mc'.Config = mc.Config ∧
    mc'.DBPool = mc.DBPool ∧ mc'.Queue = mc.Queue ∧
    mc'.HostMetrics = mc.HostMetrics ∧
    mc'.RuntimeMetrics = mc.RuntimeMetrics ∧
    (∀ e, mc.Exporter = some e → mc'.Exporter = some e) ∧
    (mc.Exporter = none →
      mc'.Exporter = (match p.Metrics with
        | some pm => pm.Exporter
        | none => none)))

/-- Same rule for the logging block. -/
def LoggingMerged (c c' : Config) (p : PredefinedKind) : Prop :=
  (c.Logging = none → c'.Logging = p.Logging) ∧
  (∀ lc, c.Logging = some lc → ∃ lc', c'.Logging = some lc' ∧
    lc'.Enabled = lc.Enabled ∧
    (∀ e, lc.Exporter = some e → lc'.Exporter = some e) ∧
    (lc.Exporter = none →
      lc'.Exporter = (match p.Logging with
        | some pl => pl.Exporter
        | none => none)))

/-- The full preset-merge contract: the three signal blocks merge per signal
by the asymmetric rule, every non-signal field is untouched, and for the
`"telemetry-to-console"` preset an enabled tracing block with a sampler but
no exporter resolves to a console exporter with the sampler intact. -/
def PresetMergeSpec (c c' : Config) (p : PredefinedKind) : Prop :=
  TracingMerged c c' p ∧ MetricsMerged c c' p ∧ LoggingMerged c c' p ∧
  (c'.Disabled = c.Disabled ∧ c'.ServiceName = c.ServiceName ∧
    c'.Kind = c.Kind ∧ c'.Instrumentations = c.Instrumentations) ∧
  (c.Kind = "telemetry-to-console" →
    ∀ tc, c.Tracing = some tc → tc.Enabled = true → tc.Sampler.isSome →
      tc.Exporter = none →
      ∃ tc' e, c'.Tracing = some tc' ∧ tc'.Exporter = some e ∧
        e.Module = "console" ∧ tc'.Sampler = tc.Sampler)

/-- Helper: what `mergeTracing` does on a present user block. -/
theorem mergeTracing_some (tc : TracingConfig)
    (pt? : Option TracingConfig) :
    ∃ tc', mergeTracing (some tc) pt? = some tc' ∧
      tc'.Enabled = tc.Enabled ∧ tc'.Sampler = tc.Sampler ∧
      tc'.HRTime = tc.HRTime ∧ tc'.TxEnabled = tc.TxEnabled ∧
      tc'.HanaPrompt = tc.HanaPrompt ∧
      (∀ e, tc.Exporter = some e → tc'.Exporter = some e) ∧
      (tc.Exporter = none →
        tc'.Exporter = (match pt? with
          | some pt => pt.Exporter
          | none => none)) := by
  obtain ⟨en, sa, ex, hr, tx, ha⟩ := tc
  cases pt? with
  | none =>
      exact ⟨_, rfl, rfl, rfl, rfl, rfl, rfl, fun e he => he, fun he => he⟩
  | some pt =>
      cases ex with
      | none =>
          refine ⟨_, rfl, rfl, rfl, rfl, rfl, rfl, ?_, fun _ => rfl⟩
          intro e he
          simp at he
      | some e0 =>
          refine ⟨_, rfl, rfl, rfl, rfl, rfl, rfl, fun e he => he, ?_⟩
          intro he
          simp at he

/-- Helper: what `mergeMetrics` does on a present user block. -/
theorem mergeMetrics_some (mc : MetricsConfig)
    (pm? : Option MetricsConfig) :
    ∃ mc', mergeMetrics (some mc) pm? = some mc' ∧
      mc'.Enabled = mc.Enabled ∧ mc'.Config = mc.Config ∧
      mc'.DBPool = mc.DBPool ∧ mc'.Queue = mc.Queue ∧
      mc'.HostMetrics = mc.HostMetrics ∧
      mc'.RuntimeMetrics = mc.RuntimeMetrics ∧
      (∀ e, mc.Exporter = some e → mc'.Exporter = some e) ∧
      (mc.Exporter = none →
        mc'.Exporter = (match pm? with
          | some pm => pm.Exporter
          | none => none)) := by
  obtain ⟨en, ex, cfg, db, qu, hm, rm⟩ := mc
  cases pm? with
  | none =>
      exact ⟨_, rfl, rfl, rfl, rfl, rfl, rfl, rfl, fun e he => he,
        fun he => he⟩
  | some pm =>
      cases ex with
      | none =>
          refine ⟨_, rfl, rfl, rfl, rfl, rfl, rfl, rfl, ?_, fun _ => rfl⟩
          intro e he
          simp at he
      | some e0 =>
          refine ⟨_, rfl, rfl, rfl, rfl, rfl, rfl, rfl, fun e he => he, ?_⟩
          intro he
          simp at he

/-- Helper: what `mergeLogging` does on a present user block. -/
theorem mergeLogging_some (lc : LoggingConfig)
    (pl? : Option LoggingConfig) :
    ∃ lc', mergeLogging (some lc) pl? = some lc' ∧
      lc'.Enabled = lc.Enabled ∧
      (∀ e, lc.Exporter = some e → lc'.Exporter = some e) ∧
      (lc.Exporter = none →
        lc'.Exporter = (match pl? with
          | some pl => pl.Exporter
          | none => none)) := by
  obtain ⟨en, ex⟩ := lc
  cases pl? with
  | none => exact ⟨_, rfl, rfl, fun e he => he, fun he => he⟩
  | some pl =>
      cases ex with
      | none =>
          refine ⟨_, rfl, rfl, ?_, fun _ => rfl⟩
          intro e he
          simp at he
      | some e0 =>
          refine ⟨_, rfl, rfl, fun e he => he, ?_⟩
          intro he
          simp at he

/-- Claim C1: the preset merge is per-signal and asymmetric - an absent
signal block is adopted wholesale from the preset, a present block only has
an absent exporter filled (sampler and all other sub-fields untouched), and
for the `"telemetry-to-console"` preset an enabled tracing block with a
sampler and no exporter resolves to a non-nil exporter whose module is
`"console"`. -/
theorem applyPredefinedKind_merges (c : Config) (p : PredefinedKind)
    (hp : GetPredefinedKinds c.Kind = some p) (c' : Config)
    (hc : applyPredefinedKind c = Except.ok c') :
    PresetMergeSpec c c' p := by
  unfold applyPredefinedKind at hc
  rw [hp] at hc
  simp only [Except.ok.injEq] at hc
  subst hc
  refine ⟨⟨?_, ?_⟩, ⟨?_, ?_⟩, ⟨?_, ?_⟩, ⟨rfl, rfl, rfl, rfl⟩, ?_⟩
  · intro h
    simp only [h]
    cases p.Tracing <;> rfl
  · intro tc h
    simp only [h]
    exact mergeTracing_some tc p.Tracing
  · intro h
    simp only [h]
    cases p.Metrics <;> rfl
  · intro mc h
    simp only [h]
    exact mergeMetrics_some mc p.Metrics
  · intro h
    simp only [h]
    cases p.Logging <;> rfl
  · intro lc h
    simp only [h]
    exact mergeLogging_some lc p.Logging
  · intro hk tc htc _ _ hE
    rw [hk] at hp
    have hpk : p = consolePK := by
      have h2 : some consolePK = some p := hp
      injection h2 with h3
      exact h3.symm
    subst hpk
    simp only [htc, mergeTracing, hE, consolePK, consolePresetTracing]
    exact ⟨_, _, rfl, rfl, rfl, rfl⟩

/-- A user configuration selecting the console preset: tracing enabled with a
sampler but no exporter. -/
def cfgConsoleUser : Config :=
  { Disabled := false
    ServiceName := "svc"
    Kind := "telemetry-to-console"
    Tracing := some
      { Enabled := true
        Sampler := some
          { Kind := "ParentBasedSampler", Root := "AlwaysOnSampler",
            Ratio := 0, IgnoreIncomingPaths := [] }
        Exporter := none
        HRTime := false, TxEnabled := false, HanaPrompt := false }
    Metrics := none
    Logging := none
    Instrumentations := [] }

/-- The configuration the preset merge resolves `cfgConsoleUser` to. -/
def cfgConsoleResolved : Config :=
  { cfgConsoleUser with
    Tracing := some
      { Enabled := true
        Sampler := some
          { Kind := "ParentBasedSampler", Root := "AlwaysOnSampler",
            Ratio := 0, IgnoreIncomingPaths := [] }
        Exporter := some
          { Module := "console", Class := "ConsoleSpanExporter", Config := [] }
        HRTime := false, TxEnabled := false, HanaPrompt := false }
    Metrics := some consolePresetMetrics }

/-- Witness for C1: the console preset applied to `cfgConsoleUser` satisfies
the merge contract (in particular the tracing exporter is filled with the
console module and the sampler is kept). -/
theorem applyPredefinedKind_merges_witness :
    GetPredefinedKinds cfgConsoleUser.Kind = some consolePK ∧
    applyPredefinedKind cfgConsoleUser = Except.ok cfgConsoleResolved ∧
    PresetMergeSpec cfgConsoleUser cfgConsoleResolved consolePK :=
  ⟨rfl, rfl,
    applyPredefinedKind_merges cfgConsoleUser consolePK rfl
      cfgConsoleResolved rfl⟩

/-! ### Trace-order lemmas (claim C3) -/

/-- Membership in `insertKey`. -/
theorem insertKey_mem_iff (keys : List String) (k tid : String) :
    tid ∈ insertKey keys k ↔ tid ∈ keys ∨ tid = k := by
  by_cases hk : k ∈ keys
  · rw [insertKey, if_pos hk]
    constructor
    · exact Or.inl
    · rintro (h | rfl)
      · exact h
      · exact hk
  · rw [insertKey, if_neg hk]
    simp

/-- `insertKey` preserves `Nodup`. -/
theorem insertKey_nodup (keys : List String) (k : String)
    (h : keys.Nodup) : (insertKey keys k).Nodup := by
  by_cases hk : k ∈ keys
  · rwa [insertKey, if_pos hk]
  · rw [insertKey, if_neg hk]
    exact h.append (List.nodup_singleton k) (by simp [hk])

/-- Membership in the folded key set. -/
theorem traceOrder_foldl_mem (l : List SpanData) :
    ∀ (keys : List String) (tid : String),
      tid ∈ l.foldl (fun ks s => insertKey ks s.TraceID) keys ↔
        tid ∈ keys ∨ ∃ s ∈ l, s.TraceID = tid := by
  induction l with
  | nil => simp
  | cons s t ih =>
      intro keys tid
      rw [List.foldl_cons, ih, insertKey_mem_iff]
      constructor
      · rintro ((h | h) | h)
        · exact Or.inl h
        · exact Or.inr ⟨s, List.mem_cons_self s t, h.symm⟩
        · obtain ⟨s', hs', he⟩ := h
          exact Or.inr ⟨s', List.mem_cons_of_mem s hs', he⟩
      · rintro (h | ⟨s', hs', he⟩)
        · exact Or.inl (Or.inl h)
        · rcases List.mem_cons.mp hs' with h1 | h1
          · exact Or.inl (Or.inr (h1 ▸ he.symm))
          · exact Or.inr ⟨s', h1, he⟩

/-- A trace id occurs in `traceOrder spans` exactly when some span of the
batch carries it. -/
theorem traceOrder_mem (spans : List SpanData) (tid : String) :
    tid ∈ traceOrder spans ↔ ∃ s ∈ spans, s.TraceID = tid := by
  rw [traceOrder, traceOrder_foldl_mem]
  simp

/-- The folded key set is duplicate-free. -/
theorem traceOrder_foldl_nodup (l : List SpanData) :
    ∀ keys : List String, keys.Nodup →
      (l.foldl (fun ks s => insertKey ks s.TraceID) keys).Nodup := by
  induction l with
  | nil => exact fun keys h => h
  | cons s t ih =>
      intro keys h
      rw [List.foldl_cons]
      exact ih _ (insertKey_nodup _ _ h)

/-- `traceOrder` lists each distinct trace id once. -/
theorem traceOrder_nodup (spans : List SpanData) :
    (traceOrder spans).Nodup :=
  traceOrder_foldl_nodup spans [] List.nodup_nil

/-- Claim C3 (amended): for a non-empty batch and any admissible map
iteration order (a permutation of the trace-group keys), the output is one
block per key - each block starting with its header line - so there is
exactly one header per distinct trace id of the batch; the ORDER of the
headers is the unspecified map order, not necessarily first-encounter order
(see the counterexample). -/
theorem spanFormat_one_block_per_trace (spans : List SpanData)
    (keyOrder : List String) (hadm : keyOrder.Perm (traceOrder spans))
    (hne : spans ≠ []) :
    defaultSpanFormatter.Format spans keyOrder =
      joinLines (keyOrder.flatMap (traceBlockLines spans)) ∧
    (∀ tid, (traceBlockLines spans tid).head? = some (traceHeaderLine tid)) ∧
    (∀ tid, tid ∈ keyOrder ↔ ∃ s ∈ spans, s.TraceID = tid) ∧
    (∀ tid ∈ traceOrder spans, keyOrder.count tid = 1) ∧
    keyOrder.Nodup := by
  have hni : spans.isEmpty = false := by
    cases spans with
    | nil => exact absurd rfl hne
    | cons a t => rfl
  refine ⟨?_, fun tid => rfl, ?_, ?_, ?_⟩
  · simp [defaultSpanFormatter.Format, hni]
  · intro tid
    rw [hadm.mem_iff, traceOrder_mem]
  · intro tid hmem
    rw [hadm.count_eq]
    exact List.count_eq_one_of_mem (traceOrder_nodup spans) hmem
  · exact hadm.nodup_iff.mpr (traceOrder_nodup spans)

/-- A span of trace `aaaaaaaa11112222`, encountered first in the batch. -/
def spanA : SpanData :=
  ⟨"aaaaaaaa11112222", "span-1", "op-a", 1000000, 2000000, []⟩

/-- A span of trace `bbbbbbbb33334444`, encountered second. -/
def spanB : SpanData :=
  ⟨"bbbbbbbb33334444", "span-2", "op-b", 1500000, 2500000, []⟩

/-- A two-trace batch: trace `a...` is encountered before trace `b...`. -/
def spans2 : List SpanData := [spanA, spanB]

/-- Different equal-length leading segments force different strings. -/
theorem append_ne_of_ne (a b x y : String)
    (hlen : a.data.length = b.data.length) (hne : a.data ≠ b.data) :
    a ++ x ≠ b ++ y := by
  intro h
  have hd : a.data ++ x.data = b.data ++ y.data := by
    have h2 := congrArg String.data h
    simpa using h2
  exact hne (List.append_inj_left hd hlen)

/-- Claim C3 counterexample: `[idB, idA]` is an admissible Go map iteration
order for the two-trace batch (a permutation of the keys), it differs from
the first-encounter order `[idA, idB]`, and the rendered output under it
differs from the output in first-encounter order - the trace headers appear
in map order, which need not be the order of first encounter. -/
theorem spanFormat_header_order_not_first_encounter :
    ([spanB.TraceID, spanA.TraceID].Perm (traceOrder spans2)) ∧
    [spanB.TraceID, spanA.TraceID] ≠ traceOrder spans2 ∧
    defaultSpanFormatter.Format spans2 [spanB.TraceID, spanA.TraceID] ≠
      defaultSpanFormatter.Format spans2 (traceOrder spans2) := by
  have hto : traceOrder spans2 = [spanA.TraceID, spanB.TraceID] := rfl
  refine ⟨?_, by decide, ?_⟩
  · rw [hto]
    exact List.Perm.swap spanA.TraceID spanB.TraceID []
  · rw [hto]
    have e1 : defaultSpanFormatter.Format spans2
        [spanB.TraceID, spanA.TraceID] =
        (traceHeaderLine spanB.TraceID ++ "\n") ++
          joinLines
            ((formatSpanHierarchy
                (sortSpansByStartTime (traceGroup spans2 spanB.TraceID)) 0 ++
              [""]) ++
              [spanA.TraceID].flatMap (traceBlockLines spans2)) := rfl
    have e2 : defaultSpanFormatter.Format spans2
        [spanA.TraceID, spanB.TraceID] =
        (traceHeaderLine spanA.TraceID ++ "\n") ++
          joinLines
            ((formatSpanHierarchy
                (sortSpansByStartTime (traceGroup spans2 spanA.TraceID)) 0 ++
              [""]) ++
              [spanB.TraceID].flatMap (traceBlockLines spans2)) := rfl
    rw [e1, e2]
    apply append_ne_of_ne
    · decide
    · decide

/-- Witness for C3 (amended): the first-encounter order itself is one
admissible iteration order for the two-trace batch. -/
theorem spanFormat_one_block_per_trace_witness :
    defaultSpanFormatter.Format spans2 (traceOrder spans2) =
      joinLines ((traceOrder spans2).flatMap (traceBlockLines spans2)) ∧
    (∀ tid, (traceBlockLines spans2 tid).head? =
      some (traceHeaderLine tid)) ∧
    (∀ tid, tid ∈ traceOrder spans2 ↔ ∃ s ∈ spans2, s.TraceID = tid) ∧
    (∀ tid ∈ traceOrder spans2, (traceOrder spans2).count tid = 1) ∧
    (traceOrder spans2).Nodup :=
  spanFormat_one_block_per_trace spans2 (traceOrder spans2)
    (List.Perm.refl _) (by decide)

/-! ### Bubble-sort lemmas (claim C6) -/

/-- A bounded pass permutes the list. -/
theorem passN_perm : ∀ (m : Nat) (l : List SpanData), (passN m l).Perm l := by
  intro m
  induction m with
  | zero => exact fun l => List.Perm.refl l
  | succ m ih =>
      intro l
      match l with
      | [] => exact List.Perm.refl []
      | [a] => exact List.Perm.refl [a]
      | a :: b :: rest =>
          rw [passN]
          split
          · exact ((ih (a :: rest)).cons b).trans
              (List.Perm.swap a b rest)
          · exact (ih (b :: rest)).cons a

/-- A bounded pass swaps only strictly-descending adjacent pairs, so the
subsequence of spans with any fixed start time is untouched. -/
theorem passN_filter : ∀ (m : Nat) (l : List SpanData) (t : Int),
    (passN m l).filter (fun s => s.StartTime == t) =
      l.filter (fun s => s.StartTime == t) := by
  intro m
  induction m with
  | zero => intro l t; rfl
  | succ m ih =>
      intro l t
      match l with
      | [] => rfl
      | [a] => rfl
      | a :: b :: rest =>
          rw [passN]
          split
          · rename_i hba
            by_cases hb : b.StartTime = t
            · have ha : a.StartTime ≠ t := by
                intro h
                rw [h, hb] at hba
                exact lt_irrefl t hba
              simp [List.filter_cons, ih, hb, ha]
            · simp [List.filter_cons, ih, hb]
          · simp [List.filter_cons, ih]

/-- A pass bounded by `m` only rearranges the first `m + 1` elements. -/
theorem passN_take_drop : ∀ (m : Nat) (l : List SpanData),
    passN m l = passN m (l.take (m + 1)) ++ l.drop (m + 1) := by
  intro m
  induction m with
  | zero =>
      intro l
      match l with
      | [] => rfl
      | a :: rest => rfl
  | succ m ih =>
      intro l
      match l with
      | [] => rfl
      | [a] => rfl
      | a :: b :: rest =>
          rw [List.take_succ_cons, List.take_succ_cons, List.drop_succ_cons,
            List.drop_succ_cons, passN, passN]
          split
          · rw [List.cons_append]
            congr 1
            have := ih (a :: rest)
            rwa [List.take_succ_cons, List.drop_succ_cons] at this
          · rw [List.cons_append]
            congr 1
            have := ih (b :: rest)
            rwa [List.take_succ_cons, List.drop_succ_cons] at this

/-- When the bound covers the whole list, the pass carries a maximum to the
last position. -/
theorem passN_last_max : ∀ (m : Nat) (l : List SpanData),
    l.length ≤ m + 1 → l ≠ [] →
    ∃ front x, passN m l = front ++ [x] ∧
      ∀ y ∈ l, y.StartTime ≤ x.StartTime := by
  intro m
  induction m with
  | zero =>
      intro l hlen hne
      match l, hlen, hne with
      | [a], _, _ =>
          exact ⟨[], a, rfl, by simp⟩
  | succ m ih =>
      intro l hlen hne
      match l, hlen, hne with
      | [a], _, _ => exact ⟨[], a, rfl, by simp⟩
      | a :: b :: rest, hlen, _ =>
          rw [passN]
          split
          · rename_i hba
            obtain ⟨front, x, heq, hmax⟩ := ih (a :: rest)
              (by simp at hlen ⊢; omega) (by simp)
            refine ⟨b :: front, x, by rw [heq, List.cons_append], ?_⟩
            intro y hy
            rcases List.mem_cons.mp hy with rfl | hy'
            · exact hmax y (List.mem_cons_self y rest)
            · rcases List.mem_cons.mp hy' with rfl | hy''
              · exact le_trans (le_of_lt hba)
                  (hmax a (List.mem_cons_self a rest))
              · exact hmax y (List.mem_cons_of_mem a hy'')
          · rename_i hba
            obtain ⟨front, x, heq, hmax⟩ := ih (b :: rest)
              (by simp at hlen ⊢; omega) (by simp)
            refine ⟨a :: front, x, by rw [heq, List.cons_append], ?_⟩
            intro y hy
            rcases List.mem_cons.mp hy with rfl | hy'
            · exact le_trans (le_of_not_lt hba)
                (hmax b (List.mem_cons_self b rest))
            · exact hmax y hy'

/-- The outer-loop invariant: positions from `k` on hold a sorted suffix that
dominates (is at least) everything before it. -/
def SortedFromIdx (l : List SpanData) (k : Nat) : Prop :=
  (l.drop k).Pairwise (fun a b => a.StartTime ≤ b.StartTime) ∧
  ∀ x ∈ l.take k, ∀ y ∈ l.drop k, x.StartTime ≤ y.StartTime

/-- One bounded pass extends the settled suffix by one position. -/
theorem passN_settles (k : Nat) (l : List SpanData)
    (h : SortedFromIdx l (k + 2)) :
    SortedFromIdx (passN (k + 1) l) (k + 1) := by
  have hlen : (passN (k + 1) l).length = l.length :=
    (passN_perm (k + 1) l).length_eq
  by_cases hshort : l.length ≤ k + 1
  · constructor
    · rw [List.drop_eq_nil_of_le (by omega)]
      exact List.Pairwise.nil
    · intro x hx y hy
      rw [List.drop_eq_nil_of_le (by omega)] at hy
      simp at hy
  · push_neg at hshort
    have h22 : k + 1 + 1 = k + 2 := rfl
    have hFlen : (l.take (k + 2)).length = k + 2 := by
      rw [List.length_take]
      omega
    have hFne : l.take (k + 2) ≠ [] := by
      intro h0
      rw [h0] at hFlen
      simp at hFlen
    obtain ⟨front, x, heq, hmax⟩ :=
      passN_last_max (k + 1) (l.take (k + 2)) (by omega) hFne
    have hplen : (passN (k + 1) (l.take (k + 2))).length = k + 2 := by
      rw [(passN_perm (k + 1) (l.take (k + 2))).length_eq, hFlen]
    have hfrontlen : front.length = k + 1 := by
      have h2 := congrArg List.length heq
      rw [hplen] at h2
      simp at h2
      omega
    have hmemF : ∀ z, z ∈ front ++ [x] → z ∈ l.take (k + 2) := by
      intro z hz
      exact (passN_perm (k + 1) (l.take (k + 2))).mem_iff.mp (heq ▸ hz)
    have hdecomp : passN (k + 1) l = front ++ ([x] ++ l.drop (k + 2)) := by
      rw [passN_take_drop, h22, heq, List.append_assoc]
    constructor
    · rw [hdecomp, show k + 1 = front.length from hfrontlen.symm,
        List.drop_left, List.singleton_append]
      refine List.Pairwise.cons ?_ h.1
      intro y hy
      exact h.2 x (hmemF x (by simp)) y hy
    · intro z hz y hy
      rw [hdecomp, show k + 1 = front.length from hfrontlen.symm,
        List.take_left] at hz
      rw [hdecomp, show k + 1 = front.length from hfrontlen.symm,
        List.drop_left] at hy
      have hzF : z ∈ l.take (k + 2) :=
        hmemF z (List.mem_append.mpr (Or.inl hz))
      rcases List.mem_append.mp hy with hy1 | hy2
      · rw [List.mem_singleton] at hy1
        subst hy1
        exact hmax z hzF
      · exact h.2 z hzF y hy2

/-- The outer loop sorts once the invariant holds beyond its bound. -/
theorem bubbleOuter_sorted : ∀ (k : Nat) (l : List SpanData),
    SortedFromIdx l (k + 1) →
    (bubbleOuter k l).Pairwise (fun a b => a.StartTime ≤ b.StartTime) := by
  intro k
  induction k with
  | zero =>
      intro l h
      match l with
      | [] => exact List.Pairwise.nil
      | a :: t =>
          exact List.Pairwise.cons (fun y hy => h.2 a (by simp) y hy) h.1
  | succ k ih =>
      intro l h
      rw [bubbleOuter]
      exact ih _ (passN_settles k l h)

/-- The outer loop permutes the list. -/
theorem bubbleOuter_perm : ∀ (k : Nat) (l : List SpanData),
    (bubbleOuter k l).Perm l := by
  intro k
  induction k with
  | zero => exact fun l => List.Perm.refl l
  | succ k ih =>
      intro l
      rw [bubbleOuter]
      exact (ih _).trans (passN_perm (k + 1) l)

/-- The outer loop never reorders spans sharing a start time. -/
theorem bubbleOuter_filter : ∀ (k : Nat) (l : List SpanData) (t : Int),
    (bubbleOuter k l).filter (fun s => s.StartTime == t) =
      l.filter (fun s => s.StartTime == t) := by
  intro k
  induction k with
  | zero => intro l t; rfl
  | succ k ih =>
      intro l t
      rw [bubbleOuter, ih, passN_filter]

/-- Claim C6: `sortSpansByStartTime` emits the spans sorted by start
timestamp ascending, is a permutation of its input, and is STABLE: for every
start time the subsequence of spans carrying it is exactly the input's
subsequence, so ties keep their original relative order. -/
theorem sortSpans_sorted_and_stable (spans : List SpanData) :
    (sortSpansByStartTime spans).Pairwise
      (fun a b => a.StartTime ≤ b.StartTime) ∧
    (sortSpansByStartTime spans).Perm spans ∧
    ∀ t : Int,
      (sortSpansByStartTime spans).filter (fun s => s.StartTime == t) =
        spans.filter (fun s => s.StartTime == t) := by
  refine ⟨?_, bubbleOuter_perm _ _, fun t => bubbleOuter_filter _ _ _⟩
  apply bubbleOuter_sorted
  constructor
  · rw [List.drop_eq_nil_of_le (by omega)]
    exact List.Pairwise.nil
  · intro x hx y hy
    rw [List.drop_eq_nil_of_le (by omega)] at hy
    simp at hy

end CapGoTelemetry
